import Mathlib

/-!
Verification development for the Drive folder utilities
(src/utils/generate_project_folder.js, src/utils/locate_file.js).

Two shallow embeddings are used, mirroring how the source accesses the store:

* a graph model (GState): the provider-wide namespace of folders together
  with the containment edges, used by the move operations
  (moveFolderToFolderById, moveFolderToFolderByName, findOrCreateFolder)
  which read and mutate containment edges and the flat name index
  (DriveApp.getFoldersByName, getParents, removeFolder, addFolder);

* a tree model (FolderT): the subtree rooted at a given folder, used by the
  read-only recursive searches (findFileByName, findFolderByName) and by
  copyFolder, which only ever walk containment edges downward from a root.
  Since the containment graph is acyclic, the downward unfolding from a root
  is a finite tree; a node with several parents appears once per parent,
  exactly as the recursive JavaScript functions would visit it.
-/

/-- A folder node of the provider namespace: stable id and (non-unique) name. -/
structure GNode where
  id : Nat
  name : String
deriving DecidableEq, Repr

/-- The provider-wide store: the flat namespace index of folders, the
containment edges (parent id, child id) in listing order, and the counter
supplying fresh ids for created folders.  The namespace root (My Drive, the
place where DriveApp.createFolder creates folders) is the folder with id 0. -/
structure GState where
  folders : List GNode
  edges : List (Nat × Nat)
  nextId : Nat
deriving DecidableEq, Repr

/-- DriveApp.getFoldersByName: every folder in the namespace with exactly
this name, ignoring containment, in index order. -/
def getFoldersByName (st : GState) (n : String) : List GNode :=
  st.folders.filter (fun f => f.name == n)

/-- DriveApp.getFolderById. -/
def getFolderById (st : GState) (i : Nat) : Option GNode :=
  st.folders.find? (fun f => f.id == i)

/-- folder.getParents(): all folders currently containing the node. -/
def getParents (st : GState) (c : Nat) : List Nat :=
  (st.edges.filter (fun e => e.2 == c)).map (fun e => e.1)

/-- folder.getFolders(): ids of the direct children of a folder, in listing
order. -/
def childIds (st : GState) (p : Nat) : List Nat :=
  (st.edges.filter (fun e => e.1 == p)).map (fun e => e.2)

/-- folder.getFolders() resolved to nodes. -/
def childFolders (st : GState) (p : Nat) : List GNode :=
  (childIds st p).filterMap (fun i => getFolderById st i)

/-- parent.removeFolder(child): removes the containment edge. -/
def removeFolder (st : GState) (p c : Nat) : GState :=
  { st with edges := st.edges.filter (fun e => !(e.1 == p && e.2 == c)) }

/-- parent.addFolder(child): appends a containment edge. -/
def addFolder (st : GState) (p c : Nat) : GState :=
  { st with edges := st.edges ++ [(p, c)] }

/-- The detach loop of the move functions: enumerate the parents of the node
(the iterator is captured before the first removal) and remove the edge from
each of them. -/
def detachAll (st : GState) (c : Nat) : GState :=
  (getParents st c).foldl (fun s p => removeFolder s p c) st

/-- DriveApp.createFolder(name): a brand-new folder with a fresh id, placed
at the namespace root (id 0). -/
def createFolder (st : GState) (name : String) : GNode × GState :=
  let n : GNode := { id := st.nextId, name := name }
  (n, { folders := st.folders ++ [n]
        edges := st.edges ++ [(0, n.id)]
        nextId := st.nextId + 1 })

/-- The ways a move can terminate abnormally.  The first four correspond to
explicit throw statements of the source; typeError models the JavaScript
TypeError raised by a property access on an undefined variable. -/
inductive MErr where
  | notFound
  | ambiguousSource
  | ambiguousDest
  | collision
  | typeError
deriving DecidableEq, Repr

/-- moveFolderToFolderById (generate_project_folder.js lines 140-149):
resolve both folders (DriveApp.getFolderById), detach the source from every
current parent, then attach it to the target.  The returned state is the
store after the call, also when it fails. -/
def moveFolderToFolderById (st : GState) (sourceFolderId targetFolderId : Nat) :
    Option MErr × GState :=
  match getFolderById st sourceFolderId, getFolderById st targetFolderId with
  | some _, some _ =>
      (none, addFolder (detachAll st sourceFolderId) targetFolderId sourceFolderId)
  | _, _ => (some MErr.notFound, st)

/-- The mutation phase of moveFolderToFolderByName (lines 196-201):
sourceFolder.getParents() raises a TypeError when the source lookup matched
nothing (sourceFolder undefined); otherwise the source is detached from all
parents, and then targetFolder.addFolder raises a TypeError when the
destination lookup matched nothing (targetFolder undefined) - the detach has
already happened at that point. -/
def moveFinish (st : GState) (src? tgt? : Option GNode) : Option MErr × GState :=
  match src? with
  | none => (some MErr.typeError, st)
  | some s =>
    match tgt? with
    | none => (some MErr.typeError, detachAll st s.id)
    | some t => (none, addFolder (detachAll st s.id) t.id s.id)

/-- moveFolderToFolderByName (generate_project_folder.js lines 162-202).
Source lookup: if it matches and isUnique is set and a second match exists,
throw (source name not unique); if it matches nothing, no error is raised
here, sourceFolder just stays undefined.  Destination lookup: if it matches,
take the first match, throw when a second match exists (destination name not
unique, regardless of isUnique), then scan the destination children and
throw when one bears the source name (collision); if it matches nothing the
whole block is skipped.  Then the mutation phase runs. -/
def moveFolderToFolderByName (st : GState)
    (sourceFolderName destinationFolderName : String) (isUnique : Bool) :
    Option MErr × GState :=
  let srcMatches := getFoldersByName st sourceFolderName
  if isUnique = true ∧ 2 ≤ srcMatches.length then (some MErr.ambiguousSource, st)
  else
    match getFoldersByName st destinationFolderName with
    | [] => moveFinish st srcMatches.head? none
    | t :: [] =>
      if (childFolders st t.id).any (fun f => f.name == sourceFolderName) then
        (some MErr.collision, st)
      else moveFinish st srcMatches.head? (some t)
    | _ :: _ :: _ => (some MErr.ambiguousDest, st)

/-- The recursive folder search of findFolderByName, over the graph store.
fuel bounds the recursion depth (the store is acyclic, so a depth bound
exists; the JavaScript needs none).  descend is the recursive call at one
fuel less.  For each child in listing order: if its name matches it is the
result; otherwise search inside it; otherwise move to the next child. -/
def gSearchList (st : GState) (target : String) (descend : Nat → Option Nat) :
    List Nat → Option Nat
  | [] => none
  | c :: rest =>
    if (getFolderById st c).elim "" GNode.name = target then some c
    else
      match descend c with
      | some r => some r
      | none => gSearchList st target descend rest

/-- findFolderByName over the graph store: search the children of the given
folder, with bounded depth. -/
def gSearch (st : GState) (target : String) : Nat → Nat → Option Nat
  | 0, _ => none
  | fuel + 1, folderId =>
    gSearchList st target (fun c => gSearch st target fuel c) (childIds st folderId)

/-- TREE MODEL.  A file node: stable id, name, uninterpreted content. -/
structure FileN where
  id : Nat
  name : String
  content : String
deriving DecidableEq, Repr

/-- The subtree rooted at a folder: id, name, direct file children and
direct folder children, each in listing order (the source always accesses
the two kinds through separate iterators, getFiles and getFolders). -/
inductive FolderT where
  | mk (id : Nat) (name : String) (files : List FileN) (subs : List FolderT)

/-- folder.getFiles() of the tree model. -/
def filesOf : FolderT → List FileN
  | .mk _ _ fs _ => fs

/-- folder.getFolders() of the tree model. -/
def subsOf : FolderT → List FolderT
  | .mk _ _ _ ss => ss

/-- folder.getId() of the tree model. -/
def idOfT : FolderT → Nat
  | .mk i _ _ _ => i

/-- folder.getName() of the tree model. -/
def nameOfT : FolderT → String
  | .mk _ n _ _ => n

/-- needle matches at the head of the haystack (both as char lists). -/
def leadMatch : List Char → List Char → Bool
  | [], _ => true
  | _ :: _, [] => false
  | n :: ns, h :: hs => n == h && leadMatch ns hs

/-- needle occurs somewhere in the haystack (both as char lists). -/
def hasOccur (ns : List Char) : List Char → Bool
  | [] => leadMatch ns []
  | h :: hs => leadMatch ns (h :: hs) || hasOccur ns hs

/-- hay.indexOf(needle) !== -1 of JavaScript: the needle occurs as a
substring of the haystack (true for the empty needle). -/
def strContains (hay needle : String) : Bool :=
  hasOccur needle.data hay.data

/-- The file-match test of findFileByName (lines 48-54): exact name
equality, or - when partialMatch is set - occurrence of the searched name
inside the file name. -/
def fileMatches (partialMatch : Bool) (fileName : String) (f : FileN) : Bool :=
  f.name == fileName || (partialMatch && strContains f.name fileName)

/-- The recursive body of findFileByName (lines 40-65) over a list of
folders: at each folder, scan its direct files first (first match wins),
then recurse into each direct subfolder in listing order, stopping at the
first hit. -/
def searchFileForest (partialMatch : Bool) (fileName : String) :
    List FolderT → Option FileN
  | [] => none
  | FolderT.mk _ _ fs ss :: rest =>
    match fs.find? (fileMatches partialMatch fileName) with
    | some f => some f
    | none =>
      match searchFileForest partialMatch fileName ss with
      | some f => some f
      | none => searchFileForest partialMatch fileName rest

/-- findFileByName (generate_project_folder.js lines 35-69): scan the files
of the root folder, then its subfolders recursively. -/
def findFileByName (t : FolderT) (fileName : String) (partialMatch : Bool) :
    Option FileN :=
  match (filesOf t).find? (fileMatches partialMatch fileName) with
  | some f => some f
  | none => searchFileForest partialMatch fileName (subsOf t)

/-- The recursive body of findFolderByName (lines 84-100) over a list of
folders: for each child in listing order, compare its name (first match
wins), and otherwise search inside it before moving to the next child. -/
def searchFolderForest (folderName : String) : List FolderT → Option FolderT
  | [] => none
  | FolderT.mk i n fs ss :: rest =>
    if n = folderName then some (FolderT.mk i n fs ss)
    else
      match searchFolderForest folderName ss with
      | some r => some r
      | none => searchFolderForest folderName rest

/-- findFolderByName (generate_project_folder.js lines 79-104): search the
children of the root folder (the root itself is never compared). -/
def findFolderByName (t : FolderT) (folderName : String) : Option FolderT :=
  searchFolderForest folderName (subsOf t)

/-- The files of a forest in the visit order of findFileByName: the files of
each folder, then the files of its subtree, then the rest of the forest. -/
def fileTraversalForest : List FolderT → List FileN
  | [] => []
  | FolderT.mk _ _ fs ss :: rest =>
    fs ++ (fileTraversalForest ss ++ fileTraversalForest rest)

/-- The files of a subtree in the visit order of findFileByName. -/
def fileTraversal (t : FolderT) : List FileN :=
  filesOf t ++ fileTraversalForest (subsOf t)

/-- The folders of a forest in the visit order of findFolderByName: each
child, then its subtree, then the rest of the forest. -/
def folderTraversal : List FolderT → List FolderT
  | [] => []
  | FolderT.mk i n fs ss :: rest =>
    FolderT.mk i n fs ss :: (folderTraversal ss ++ folderTraversal rest)

/-- file.makeCopy(name, target) applied to each file in turn (lines
117-120): each copy gets a fresh id from the counter and keeps name and
content. -/
def copyFilesList : List FileN → Nat → List FileN × Nat
  | [], c => ([], c)
  | f :: fs, c =>
    let rest := copyFilesList fs (c + 1)
    (⟨c, f.name, f.content⟩ :: rest.1, rest.2)

mutual
/-- copyFolder (generate_project_folder.js lines 113-128): copy every
direct file of the source into the target (files first), then for each
direct subfolder create a fresh empty folder of the same name under the
target and recurse into the pair.  New children are appended to the target
in creation order; the fresh ids come from the counter. -/
def copyFolder : FolderT → FolderT → Nat → FolderT × Nat
  | FolderT.mk _ _ sfs sss, FolderT.mk di dn dfs dsubs, c =>
    let nf := copyFilesList sfs c
    let ns := copySubsList sss nf.2
    (FolderT.mk di dn (dfs ++ nf.1) (dsubs ++ ns.1), ns.2)

/-- The subfolder loop of copyFolder (lines 122-127): for each subfolder,
targetFolder.createFolder(name) makes a fresh empty folder, then the copy
recurses into it. -/
def copySubsList : List FolderT → Nat → List FolderT × Nat
  | [], c => ([], c)
  | s :: ss, c =>
    let filled := copyFolder s (FolderT.mk c (nameOfT s) [] []) (c + 1)
    let rest := copySubsList ss filled.2
    (filled.1 :: rest.1, rest.2)
end

/-- The error surfaced by the id-getter wrappers: the JavaScript TypeError
raised by calling a method on undefined. -/
inductive JsErr where
  | typeError
deriving DecidableEq, Repr

/-- getFileId (generate_project_folder.js lines 212-215): findFileByName
then file.getId().  When the search returns undefined the method call
raises a TypeError. -/
def getFileId (t : FolderT) (fileName : String) : Except JsErr Nat :=
  match findFileByName t fileName false with
  | some f => Except.ok f.id
  | none => Except.error JsErr.typeError

/-- getFolderId (generate_project_folder.js lines 225-228): findFolderByName
then folder.getId().  When the search returns undefined the method call
raises a TypeError. -/
def getFolderId (t : FolderT) (folderName : String) : Except JsErr Nat :=
  match findFolderByName t folderName with
  | some f => Except.ok (idOfT f)
  | none => Except.error JsErr.typeError

/-- locateFileId (locate_file.js lines 1-6): resolve the subfolder by name
under the given folder, then the file by name under that subfolder, and
return its id as a JSON string.  The intermediate id-to-folder resolution of
getFileId is modelled by searching directly in the located subtree (ids are
globally unique).  Either absent name surfaces as a TypeError inside the
respective getter. -/
def locateFileId (t : FolderT) (folderName fileName : String) :
    Except JsErr String :=
  match findFolderByName t folderName with
  | none => Except.error JsErr.typeError
  | some sub =>
    match findFileByName sub fileName false with
    | none => Except.error JsErr.typeError
    | some f => Except.ok (toString f.id)

/-- findOrCreateFolder (generate_project_folder.js lines 238-251): search
for the name under the parent; when absent, create a brand-new folder (at
the namespace root).  When moveTo is set, resolve the parent by id and move
the folder there (folder.moveTo: detach from all parents, attach to the new
one).  Returns the error if any, the resulting store, and the id of the
found-or-created folder. -/
def findOrCreateFolder (st : GState) (parentFolderId : Nat) (folderName : String)
    (moveTo : Bool) (fuel : Nat) : Option MErr × GState × Nat :=
  let located := gSearch st folderName fuel parentFolderId
  let p := match located with
    | some f => (f, st)
    | none => ((createFolder st folderName).1.id, (createFolder st folderName).2)
  if moveTo then
    match getFolderById p.2 parentFolderId with
    | none => (some MErr.notFound, p.2, p.1)
    | some _ => (none, addFolder (detachAll p.2 p.1) parentFolderId p.1, p.1)
  else (none, p.2, p.1)

/-- The id-free part of a file: name and content, the data a copy must
preserve. -/
structure FShape where
  name : String
  content : String
deriving DecidableEq, Repr

/-- fShape strips the id from a file. -/
def fShape (f : FileN) : FShape :=
  ⟨f.name, f.content⟩

/-- The id-free skeleton of a subtree: names of folders, names and contents
of files, with the original nesting. -/
inductive Skel where
  | mk (name : String) (files : List FShape) (subs : List Skel)

mutual
/-- The skeleton of a folder subtree. -/
def skelOf : FolderT → Skel
  | .mk _ n fs ss => Skel.mk n (fs.map fShape) (skelForest ss)

/-- The skeletons of a forest. -/
def skelForest : List FolderT → List Skel
  | [] => []
  | s :: rest => skelOf s :: skelForest rest
end

mutual
/-- Every id occurring in a folder subtree (folder ids and file ids). -/
def idsOfT : FolderT → List Nat
  | .mk i _ fs ss => i :: (fs.map FileN.id ++ idsForest ss)

/-- Every id occurring in a forest. -/
def idsForest : List FolderT → List Nat
  | [] => []
  | s :: rest => idsOfT s ++ idsForest rest
end

/-! Concrete stores and trees used to exercise the operations. -/

/-- A store holding one folder named s and two folders named d. -/
def stTwoDest : GState :=
  ⟨[⟨1, "s"⟩, ⟨2, "d"⟩, ⟨3, "d"⟩], [], 4⟩

/-- A store holding folder A inside folder P, and no folder named B. -/
def stMissingDest : GState :=
  ⟨[⟨0, "P"⟩, ⟨1, "A"⟩], [(0, 1)], 2⟩

/-- stMissingDest after A has been detached from P. -/
def stDetached : GState :=
  ⟨[⟨0, "P"⟩, ⟨1, "A"⟩], [], 2⟩

/-- A store where Reports has the two parents P1 and P2, and Archive is a
further folder. -/
def stMulti : GState :=
  ⟨[⟨1, "Reports"⟩, ⟨2, "P1"⟩, ⟨3, "P2"⟩, ⟨4, "Archive"⟩], [(2, 1), (3, 1)], 5⟩

/-- A deep folder named tgt, nested inside the first-listed child. -/
def deepChild : FolderT := .mk 10 "tgt" [] []

/-- The first-listed child: named a, containing deepChild. -/
def sibA : FolderT := .mk 5 "a" [] [deepChild]

/-- The second-listed child: itself named tgt. -/
def directChild : FolderT := .mk 20 "tgt" [] []

/-- A root whose children are sibA (hiding a deep tgt) and directChild
(named tgt). -/
def exRoot4 : FolderT := .mk 1 "root" [] [sibA, directChild]

/-- A store holding only the namespace root folder. -/
def stRootOnly : GState := ⟨[⟨0, "root"⟩], [], 1⟩

/-- stRootOnly after an Invoices folder has been created under the root. -/
def stInvoices : GState := ⟨[⟨0, "root"⟩, ⟨1, "Invoices"⟩], [(0, 1)], 2⟩

/-- A store holding the namespace root and a folder Projects under it. -/
def stProjects : GState := ⟨[⟨0, "MyDrive"⟩, ⟨1, "Projects"⟩], [(0, 1)], 2⟩

/-- stProjects after one folder X has been created at the namespace root. -/
def stProjects1 : GState :=
  ⟨[⟨0, "MyDrive"⟩, ⟨1, "Projects"⟩, ⟨2, "X"⟩], [(0, 1), (0, 2)], 3⟩

/-- stProjects after two root-level folders named X have been created. -/
def stProjects2 : GState :=
  ⟨[⟨0, "MyDrive"⟩, ⟨1, "Projects"⟩, ⟨2, "X"⟩, ⟨3, "X"⟩],
   [(0, 1), (0, 2), (0, 3)], 4⟩

/-- A small subtree: a root with one file and one empty subfolder. -/
def exTree9 : FolderT :=
  .mk 1 "root" [⟨2, "report.pdf", "data"⟩] [.mk 3 "sub" [] []]

/-! Helper lemmas about the detach loop. -/

theorem bool_remove_merge (a b c : Bool) :
    (!(b && c) && !(a && c)) = !((a || b) && c) := by
  cases a <;> cases b <;> cases c <;> rfl

theorem foldl_remove_folders (ps : List Nat) (st : GState) (c : Nat) :
    (ps.foldl (fun s p => removeFolder s p c) st).folders = st.folders := by
  induction ps generalizing st with
  | nil => rfl
  | cons p ps ih => simpa [removeFolder] using ih (removeFolder st p c)

theorem foldl_remove_nextId (ps : List Nat) (st : GState) (c : Nat) :
    (ps.foldl (fun s p => removeFolder s p c) st).nextId = st.nextId := by
  induction ps generalizing st with
  | nil => rfl
  | cons p ps ih => simpa [removeFolder] using ih (removeFolder st p c)

theorem foldl_remove_edges (ps : List Nat) (st : GState) (c : Nat) :
    (ps.foldl (fun s p => removeFolder s p c) st).edges
      = st.edges.filter (fun e => !(ps.contains e.1 && e.2 == c)) := by
  induction ps generalizing st with
  | nil => simp
  | cons p ps ih =>
    rw [List.foldl_cons, ih (removeFolder st p c)]
    show (st.edges.filter _).filter _ = _
    rw [List.filter_filter]
    refine List.filter_congr (fun e _ => ?_)
    rw [List.contains_cons, bool_remove_merge]

theorem detachAll_edges (st : GState) (c : Nat) :
    (detachAll st c).edges = st.edges.filter (fun e => !(e.2 == c)) := by
  rw [detachAll, foldl_remove_edges]
  refine List.filter_congr (fun e he => ?_)
  by_cases h : e.2 = c
  · have hmem : e.1 ∈ getParents st c := by
      rw [getParents]
      exact List.mem_map.2 ⟨e, List.mem_filter.2 ⟨he, by simp [h]⟩, rfl⟩
    simp [h]
    exact hmem
  · simp [h]

theorem detachAll_folders (st : GState) (c : Nat) :
    (detachAll st c).folders = st.folders :=
  foldl_remove_folders _ _ _

/-- Claim C3 helper: the edges after a successful detach-and-attach. -/
theorem move_edges (st : GState) (s d : Nat) :
    (addFolder (detachAll st s) d s).edges
      = st.edges.filter (fun e => !(e.2 == s)) ++ [(d, s)] := by
  rw [addFolder, detachAll_edges]

theorem parents_after_move (st : GState) (s d : Nat) :
    getParents (addFolder (detachAll st s) d s) s = [d] := by
  rw [getParents, move_edges, List.filter_append, List.filter_filter]
  simp

theorem moveFinish_fst (st : GState) (a b : Option GNode) :
    (moveFinish st a b).1 = none ∨ (moveFinish st a b).1 = some MErr.typeError := by
  cases a <;> cases b <;> simp [moveFinish]

theorem moveByName_cases (st : GState) (sn dn : String) (u : Bool) :
    (moveFolderToFolderByName st sn dn u).2 = st
    ∨ (moveFolderToFolderByName st sn dn u).1 = none
    ∨ (moveFolderToFolderByName st sn dn u).1 = some MErr.typeError := by
  simp only [moveFolderToFolderByName]
  split
  · exact Or.inl rfl
  · split
    · exact Or.inr (moveFinish_fst st (getFoldersByName st sn).head? none)
    · split
      · exact Or.inl rfl
      · exact Or.inr (moveFinish_fst st (getFoldersByName st sn).head? _)
    · exact Or.inl rfl

/-- Claim C1: whenever moveFolderToFolderByName fails with one of the
guarded errors (NotFound, AmbiguousName for source or destination, or
Collision), the store - in particular every containment edge - is exactly
as before the call: those throws all happen before the detach loop runs.
(NotFound is never raised by this function, so that disjunct is vacuous.) -/
theorem moveByName_error_leaves_state (st : GState) (sn dn : String) (u : Bool)
    (e : MErr)
    (h1 : (moveFolderToFolderByName st sn dn u).1 = some e)
    (h2 : e = MErr.notFound ∨ e = MErr.ambiguousSource
          ∨ e = MErr.ambiguousDest ∨ e = MErr.collision) :
    (moveFolderToFolderByName st sn dn u).2 = st := by
  rcases moveByName_cases st sn dn u with h | h | h
  · exact h
  · rw [h] at h1; cases h1
  · rw [h] at h1
    have he : e = MErr.typeError := by
      have := h1.symm.trans rfl
      injection h1 with h1e
      exact h1e.symm
    rcases h2 with rfl | rfl | rfl | rfl <;> cases he

theorem moveByName_error_leaves_state_w :
    (moveFolderToFolderByName stTwoDest "s" "d" false).2 = stTwoDest :=
  moveByName_error_leaves_state stTwoDest "s" "d" false MErr.ambiguousDest
    (by decide) (by decide)

/-- Claim C2 (code bug): on a store where folder A sits inside folder P and
no folder named B exists, moveFolderToFolderByName("A", "B") does not fail
with NotFound - the destination block is skipped entirely, the detach loop
removes A from P, and only then does targetFolder.addFolder crash with a
TypeError, leaving the store mutated. -/
theorem moveByName_missing_destination_detaches :
    moveFolderToFolderByName stMissingDest "A" "B" false
      = (some MErr.typeError, stDetached)
    ∧ stDetached ≠ stMissingDest := by
  exact ⟨by decide, by decide⟩

/-- Claim C3: for any store and any resolvable source S and destination D,
moveFolderToFolderById succeeds, every pre-existing containment edge into S
is removed, exactly the one edge (D, S) is added, and the parents of S
afterwards are exactly [D]. -/
theorem moveById_reparents (st : GState) (s d : Nat) (ns nd : GNode)
    (hs : getFolderById st s = some ns) (hd : getFolderById st d = some nd) :
    (moveFolderToFolderById st s d).1 = none
    ∧ (moveFolderToFolderById st s d).2.edges
        = st.edges.filter (fun e => !(e.2 == s)) ++ [(d, s)]
    ∧ getParents (moveFolderToFolderById st s d).2 s = [d] := by
  have hmv : moveFolderToFolderById st s d
      = (none, addFolder (detachAll st s) d s) := by
    unfold moveFolderToFolderById
    rw [hs, hd]
  rw [hmv]
  exact ⟨rfl, move_edges st s d, parents_after_move st s d⟩

theorem moveById_reparents_w :
    (moveFolderToFolderById stMulti 1 4).1 = none
    ∧ getParents (moveFolderToFolderById stMulti 1 4).2 1 = [4] := by
  have h := moveById_reparents stMulti 1 4 ⟨1, "Reports"⟩ ⟨4, "Archive"⟩
    (by decide) (by decide)
  exact ⟨h.1, h.2.2⟩

/-- Claim C5: destination-name ambiguity always fails with the destination
variant of AmbiguousName, whatever the isUnique flag (provided the earlier
source check did not already throw); source-name ambiguity fails only when
isUnique is set, and with isUnique unset the call never raises the source
variant (the first source match is used instead). -/
theorem moveByName_asymmetric_uniqueness (st : GState) (sn dn : String)
    (u : Bool) :
    (2 ≤ (getFoldersByName st dn).length →
      ¬(u = true ∧ 2 ≤ (getFoldersByName st sn).length) →
      (moveFolderToFolderByName st sn dn u).1 = some MErr.ambiguousDest)
    ∧ (2 ≤ (getFoldersByName st sn).length →
      (moveFolderToFolderByName st sn dn true).1 = some MErr.ambiguousSource)
    ∧ (moveFolderToFolderByName st sn dn false).1 ≠ some MErr.ambiguousSource := by
  refine ⟨?_, ?_, ?_⟩
  · intro hd hu
    simp only [moveFolderToFolderByName]
    rw [if_neg hu]
    rcases hm : getFoldersByName st dn with _ | ⟨t, _ | ⟨t2, rest⟩⟩
    · rw [hm] at hd; simp at hd
    · rw [hm] at hd; simp at hd
    · rfl
  · intro hs
    simp only [moveFolderToFolderByName]
    split
    · rfl
    · rename_i hcond
      exact absurd ⟨by simp, hs⟩ hcond
  · simp only [moveFolderToFolderByName]
    rw [if_neg (by simp)]
    have hfin : ∀ b, (moveFinish st ((getFoldersByName st sn).head?) b).1
        ≠ some MErr.ambiguousSource := by
      intro b
      rcases moveFinish_fst st (getFoldersByName st sn).head? b with h | h <;>
        rw [h] <;> simp
    split
    · exact hfin none
    · split
      · simp
      · exact hfin _
    · simp

theorem moveByName_asymmetric_uniqueness_w :
    (moveFolderToFolderByName stTwoDest "s" "d" true).1
      = some MErr.ambiguousDest :=
  (moveByName_asymmetric_uniqueness stTwoDest "s" "d" true).1
    (by decide) (by decide)

/-! Characterization of the recursive searches as first-match over the
pre-order traversal sequence. -/

theorem searchFolderForest_eq_find? : ∀ (n : String) (ss : List FolderT),
    searchFolderForest n ss
      = (folderTraversal ss).find? (fun s => nameOfT s == n)
  | _, [] => by simp [searchFolderForest, folderTraversal]
  | n, FolderT.mk i nm fs ss :: rest => by
    have ih1 := searchFolderForest_eq_find? n ss
    have ih2 := searchFolderForest_eq_find? n rest
    simp only [searchFolderForest, folderTraversal]
    by_cases h : nm = n
    · rw [if_pos h, List.find?_cons_of_pos _ (by simp [nameOfT, h])]
    · rw [if_neg h,
        List.find?_cons_of_neg _ (by simp [nameOfT, h]),
        List.find?_append, ← ih1, ← ih2]
      cases searchFolderForest n ss <;> simp
termination_by n ss => sizeOf ss

theorem searchFileForest_eq_find? : ∀ (pm : Bool) (fn : String) (ss : List FolderT),
    searchFileForest pm fn ss
      = (fileTraversalForest ss).find? (fileMatches pm fn)
  | _, _, [] => by simp [searchFileForest, fileTraversalForest]
  | pm, fn, FolderT.mk i nm fs ss :: rest => by
    have ih1 := searchFileForest_eq_find? pm fn ss
    have ih2 := searchFileForest_eq_find? pm fn rest
    simp only [searchFileForest, fileTraversalForest]
    rw [List.find?_append, List.find?_append, ← ih1, ← ih2]
    cases fs.find? (fileMatches pm fn) <;>
      cases searchFileForest pm fn ss <;> simp
termination_by pm fn ss => sizeOf ss

theorem findFolderByName_eq_find? (t : FolderT) (n : String) :
    findFolderByName t n
      = (folderTraversal (subsOf t)).find? (fun s => nameOfT s == n) := by
  rw [findFolderByName, searchFolderForest_eq_find?]

theorem findFileByName_eq_find? (t : FolderT) (fn : String) (pm : Bool) :
    findFileByName t fn pm = (fileTraversal t).find? (fileMatches pm fn) := by
  rw [findFileByName, fileTraversal, List.find?_append, searchFileForest_eq_find?]
  cases (filesOf t).find? (fileMatches pm fn) <;> simp

/-- Claim C6: both searches return none (NotFound) exactly when no node of
the subtree matches, and otherwise the first match of the pre-order
traversal sequence - so the search is fully determined by the initial segment of the
traversal up to the first match and visits nothing beyond it.  Both
functions are pure: they take the subtree and return only the located node,
so they cannot mutate the store. -/
theorem findByName_pre_order_first_match (t : FolderT) (n : String) (pm : Bool) :
    findFileByName t n pm = (fileTraversal t).find? (fileMatches pm n)
    ∧ findFolderByName t n
        = (folderTraversal (subsOf t)).find? (fun s => nameOfT s == n)
    ∧ (findFileByName t n pm = none ↔ ∀ f ∈ fileTraversal t, ¬ fileMatches pm n f)
    ∧ (findFolderByName t n = none ↔
        ∀ s ∈ folderTraversal (subsOf t), nameOfT s ≠ n) := by
  refine ⟨findFileByName_eq_find? t n pm, findFolderByName_eq_find? t n, ?_, ?_⟩
  · rw [findFileByName_eq_find?]
    exact List.find?_eq_none
  · rw [findFolderByName_eq_find?, List.find?_eq_none]
    constructor
    · intro h s hs
      simpa using h s hs
    · intro h s hs
      simpa using h s hs

/-- Claim C4 counterexample: in exRoot4 the second-listed child directChild
bears the searched name tgt, yet findFolderByName returns deepChild, the
match found deeper inside the first-listed sibling sibA - the direct child
is not preferred. -/
theorem findFolderByName_direct_child_loses :
    findFolderByName exRoot4 "tgt" = some deepChild
    ∧ directChild ∈ subsOf exRoot4
    ∧ nameOfT directChild = "tgt"
    ∧ findFolderByName exRoot4 "tgt" ≠ some directChild := by
  have h1 : findFolderByName exRoot4 "tgt" = some deepChild := by
    simp [findFolderByName, subsOf, exRoot4, searchFolderForest,
      sibA, directChild, deepChild]
  refine ⟨h1, by simp [exRoot4, subsOf], by simp [directChild, nameOfT], ?_⟩
  rw [h1]
  simp [deepChild, directChild]

/-- Claim C4 amended: the search does not scan all direct children before
descending; each child is descended into immediately after its own name
check.  Hence when the first-listed child does not itself match but its
subtree holds a match, the result comes from inside that first child, in
preference to any direct match among later siblings. -/
theorem findFolderByName_interleaved (i : Nat) (nm : String) (fs : List FileN)
    (c1 : FolderT) (rest : List FolderT) (n : String)
    (h1 : nameOfT c1 ≠ n)
    (h2 : ∃ d ∈ folderTraversal (subsOf c1), nameOfT d = n) :
    ∃ r, findFolderByName (FolderT.mk i nm fs (c1 :: rest)) n = some r
      ∧ r ∈ folderTraversal (subsOf c1) := by
  obtain ⟨d, hd, hdn⟩ := h2
  have hsome : ((folderTraversal (subsOf c1)).find?
      (fun s => nameOfT s == n)).isSome :=
    List.find?_isSome.2 ⟨d, hd, by simp [hdn]⟩
  obtain ⟨r, hr⟩ := Option.isSome_iff_exists.1 hsome
  refine ⟨r, ?_, List.mem_of_find?_eq_some hr⟩
  cases c1 with
  | mk i1 n1 fs1 ss1 =>
    rw [findFolderByName]
    show searchFolderForest n (FolderT.mk i1 n1 fs1 ss1 :: rest) = some r
    have hn1 : ¬ n1 = n := by simpa [nameOfT] using h1
    simp only [searchFolderForest, if_neg hn1]
    rw [searchFolderForest_eq_find?]
    simp only [subsOf] at hr
    rw [hr]

theorem findFolderByName_interleaved_w :
    ∃ r, findFolderByName exRoot4 "tgt" = some r
      ∧ r ∈ folderTraversal (subsOf sibA) :=
  findFolderByName_interleaved 1 "root" [] sibA [directChild] "tgt"
    (by simp [sibA, nameOfT])
    ⟨deepChild, by simp [sibA, subsOf, folderTraversal, deepChild],
      by simp [deepChild, nameOfT]⟩

/-- Claim C9: when no file of the searched name exists in the subtree,
findFileByName returns none (undefined) and getFileId surfaces the absence
as a TypeError crash, not as a guarded NotFound result; likewise
getFolderId, and hence locateFileId, when the folder name is absent. -/
theorem absent_name_raises_type_error (t : FolderT) (fn fo fi : String)
    (hfile : ∀ f ∈ fileTraversal t, ¬ fileMatches false fn f)
    (hfolder : ∀ s ∈ folderTraversal (subsOf t), nameOfT s ≠ fo) :
    getFileId t fn = Except.error JsErr.typeError
    ∧ getFolderId t fo = Except.error JsErr.typeError
    ∧ locateFileId t fo fi = Except.error JsErr.typeError := by
  have h1 : findFileByName t fn false = none := by
    rw [findFileByName_eq_find?]
    exact List.find?_eq_none.2 hfile
  have h2 : findFolderByName t fo = none := by
    rw [findFolderByName_eq_find?]
    refine List.find?_eq_none.2 (fun s hs => ?_)
    simpa using hfolder s hs
  exact ⟨by simp [getFileId, h1], by simp [getFolderId, h2],
    by simp [locateFileId, h2]⟩

theorem absent_name_raises_type_error_w :
    getFileId exTree9 "missing" = Except.error JsErr.typeError
    ∧ getFolderId exTree9 "nofolder" = Except.error JsErr.typeError := by
  have h := absent_name_raises_type_error exTree9 "missing" "nofolder" "x"
    (by
      intro f hf
      simp [fileTraversal, filesOf, subsOf, exTree9, fileTraversalForest] at hf
      simp [hf, fileMatches])
    (by
      intro s hs
      simp [folderTraversal, subsOf, exTree9] at hs
      simp [hs, nameOfT])
  exact ⟨h.1, h.2.1⟩

/-- Claim C8: on a store holding only the namespace root, findOrCreateFolder
with moveTo set creates exactly one folder named Invoices (the store gains
exactly that folder and the edge placing it under the root), returns its id,
and a second identical call returns the same id and leaves the store
byte-for-byte unchanged - no duplicate is created.  The bound fuel+1 covers
every positive recursion budget. -/
theorem findOrCreateFolder_moveTo_idempotent (fuel : Nat) :
    findOrCreateFolder stRootOnly 0 "Invoices" true (fuel + 1)
      = (none, stInvoices, 1)
    ∧ stInvoices.folders = stRootOnly.folders ++ [⟨1, "Invoices"⟩]
    ∧ findOrCreateFolder stInvoices 0 "Invoices" true (fuel + 1)
      = (none, stInvoices, 1) :=
  ⟨rfl, rfl, rfl⟩

/-- Claim C10: with moveTo unset and the searched name absent under the
parent (folder Projects, id 1), each call creates a fresh folder at the
namespace root instead of under the parent: after two identical calls the
store holds two distinct root-level folders named X (children of the root,
id 0), the subtree of Projects is still empty, and the two returned ids
differ - the call is not idempotent. -/
theorem findOrCreateFolder_no_moveTo_duplicates (fuel : Nat) :
    findOrCreateFolder stProjects 1 "X" false (fuel + 1)
      = (none, stProjects1, 2)
    ∧ findOrCreateFolder stProjects1 1 "X" false (fuel + 1)
      = (none, stProjects2, 3)
    ∧ (2 : Nat) ≠ 3
    ∧ childIds stProjects2 1 = []
    ∧ childIds stProjects2 0 = [1, 2, 3]
    ∧ (getFoldersByName stProjects2 "X").length = 2 :=
  ⟨rfl, rfl, by decide, rfl, rfl, rfl⟩

/-! Lemmas about the copy engine. -/

theorem copyFilesList_spec (fs : List FileN) : ∀ (c : Nat),
    ((copyFilesList fs c).1).map fShape = fs.map fShape
    ∧ (copyFilesList fs c).2 = c + fs.length
    ∧ ∀ j ∈ ((copyFilesList fs c).1).map FileN.id,
        c ≤ j ∧ j < c + fs.length := by
  induction fs with
  | nil => intro c; simp [copyFilesList]
  | cons f fs ih =>
    intro c
    obtain ⟨h1, h2, h3⟩ := ih (c + 1)
    refine ⟨?_, ?_, ?_⟩
    · simp [copyFilesList, fShape, h1]
    · simp only [copyFilesList, List.length_cons]
      omega
    · intro j hj
      simp only [copyFilesList, List.map_cons, List.mem_cons] at hj
      rcases hj with rfl | hj
      · refine ⟨Nat.le_refl _, ?_⟩
        simp only [List.length_cons]
        omega
      · have hb := h3 j hj
        simp only [List.length_cons]
        omega

theorem copySubsList_spec : ∀ (ss : List FolderT) (c : Nat),
    skelForest (copySubsList ss c).1 = skelForest ss
    ∧ c ≤ (copySubsList ss c).2
    ∧ ∀ j ∈ idsForest (copySubsList ss c).1, c ≤ j ∧ j < (copySubsList ss c).2
  | [], c => by simp [copySubsList, skelForest, idsForest]
  | FolderT.mk si sn sfs sss :: ss, c => by
    obtain ⟨hf1, hf2, hf3⟩ := copyFilesList_spec sfs (c + 1)
    obtain ⟨hs1, hs2, hs3⟩ :=
      copySubsList_spec sss (copyFilesList sfs (c + 1)).2
    obtain ⟨hr1, hr2, hr3⟩ :=
      copySubsList_spec ss (copySubsList sss (copyFilesList sfs (c + 1)).2).2
    simp only [copySubsList, copyFolder, nameOfT, List.nil_append]
    refine ⟨?_, ?_, ?_⟩
    · simp only [skelForest, skelOf]
      rw [hf1, hs1, hr1]
    · omega
    · intro j hj
      simp only [idsForest, idsOfT, List.mem_append, List.mem_cons] at hj
      rcases hj with (rfl | hj | hj) | hj
      · omega
      · have := hf3 j hj
        omega
      · have := hs3 j hj
        omega
      · have := hr3 j hj
        omega
termination_by ss _ => sizeOf ss

/-- Claim C7: copying a source subtree into a destination appends to the
destination, in order, first copies of all the source files of that level
and then the copied subfolders; the appended part has the same skeleton
(names, nesting, file contents) as the source subtree while every id in it
is fresh (at least the counter value, below the returned counter), with all
file-copy ids of the level preceding every id created in the subfolders.
Running the copy a second time against the resulting destination appends a
second, independent copy (again skeleton-equal, with ids fresh beyond the
first run) instead of merging with the first. -/
theorem copyFolder_copies_subtree (src : FolderT) (di : Nat) (dn : String)
    (dfs : List FileN) (dsubs : List FolderT) (c : Nat) :
    ∃ nf ns c2 nf2 ns2 c3,
      copyFolder src (FolderT.mk di dn dfs dsubs) c
        = (FolderT.mk di dn (dfs ++ nf) (dsubs ++ ns), c2)
      ∧ nf.map fShape = (filesOf src).map fShape
      ∧ skelForest ns = skelForest (subsOf src)
      ∧ (∀ j ∈ nf.map FileN.id, c ≤ j ∧ j < c + (filesOf src).length)
      ∧ (∀ j ∈ idsForest ns, c + (filesOf src).length ≤ j ∧ j < c2)
      ∧ copyFolder src (FolderT.mk di dn (dfs ++ nf) (dsubs ++ ns)) c2
          = (FolderT.mk di dn (dfs ++ nf ++ nf2) (dsubs ++ ns ++ ns2), c3)
      ∧ nf2.map fShape = (filesOf src).map fShape
      ∧ skelForest ns2 = skelForest (subsOf src)
      ∧ (∀ j ∈ nf2.map FileN.id ++ idsForest ns2, c2 ≤ j) := by
  cases src with
  | mk si sn sfs sss =>
    obtain ⟨hf1, hf2, hf3⟩ := copyFilesList_spec sfs c
    obtain ⟨hs1, hs2, hs3⟩ := copySubsList_spec sss (copyFilesList sfs c).2
    obtain ⟨hg1, hg2, hg3⟩ :=
      copyFilesList_spec sfs (copySubsList sss (copyFilesList sfs c).2).2
    obtain ⟨ht1, ht2, ht3⟩ := copySubsList_spec sss
      (copyFilesList sfs (copySubsList sss (copyFilesList sfs c).2).2).2
    refine ⟨(copyFilesList sfs c).1,
      (copySubsList sss (copyFilesList sfs c).2).1,
      (copySubsList sss (copyFilesList sfs c).2).2,
      (copyFilesList sfs (copySubsList sss (copyFilesList sfs c).2).2).1,
      (copySubsList sss
        (copyFilesList sfs (copySubsList sss (copyFilesList sfs c).2).2).2).1,
      (copySubsList sss
        (copyFilesList sfs (copySubsList sss (copyFilesList sfs c).2).2).2).2,
      ?_, ?_, ?_, ?_, ?_, ?_, ?_, ?_, ?_⟩
    · simp only [copyFolder]
    · simpa only [filesOf] using hf1
    · simpa only [subsOf] using hs1
    · simpa only [filesOf] using hf3
    · intro j hj
      have := hs3 j hj
      simp only [filesOf, List.length_map]
      omega
    · simp only [copyFolder, List.append_assoc]
    · simpa only [filesOf] using hg1
    · simpa only [subsOf] using ht1
    · intro j hj
      rcases List.mem_append.1 hj with hj | hj
      · exact (hg3 j hj).1
      · have := ht3 j hj
        omega
